import Mathlib

/-!
# Verification of `unified_converter.py` (WebM → GIF converter)

Shallow embedding, in Lean 4, of the algorithmic core of
`src/unified_converter.py`:

* the frame pixel model and `convert_black_to_transparent` (lines 359-375),
* the channel-normalization step of `GifWriter.add_frame` (lines 319-328),
* the `GifWriter` lazy-spawn / `close` state machine (lines 262-350),
* the transparency-planning decision of `convert_webm_to_gif` (lines 390-407)
  together with the literal threshold 16 at line 425,
* the metadata parsing of `WebmDecoder.get_info` (lines 130-150),
* the raw-stream frame-reading loop of `WebmDecoder.decode_frames`
  (lines 230-247),
* the failure-cleanup handler of `convert_webm_to_gif` (lines 447-451).

Machine bytes are modelled as `Nat` (all operations involved are comparisons
and constant stores, which agree with uint8 semantics on the byte range);
Python floats arising from ffprobe rationals are modelled as `ℚ`.
-/

/-! ## Pixel and frame model

A decoded frame in the source is a numpy array of shape `(height, width, c)`
with `c ∈ {3, 4}` and dtype uint8.  The spatial layout is irrelevant to every
per-pixel transformation in the source (they are all elementwise over pixels),
so a frame is modelled as the row-major list of its pixels, tagged by its
channel count. -/

/-- A 3-channel (RGB) pixel: `(r, g, b)`. -/
abbrev Pixel3 := Nat × Nat × Nat

/-- A 4-channel (RGBA) pixel: `(r, g, b, a)`. -/
abbrev Pixel4 := Nat × Nat × Nat × Nat

/-- A decoded frame: its row-major pixel list, tagged with the channel count
(`frame.shape[2] ∈ {3, 4}` in the source). -/
inductive Frame where
  | rgb (pixels : List Pixel3)
  | rgba (pixels : List Pixel4)
deriving DecidableEq, Repr

/-! ## `convert_black_to_transparent` (source lines 359-375) -/

/-- One pixel of the masking step, lines 370-373 of the source:
`black_mask = np.all(frame[:, :, :3] <= threshold, axis=2)` followed by
`frame[black_mask, 3] = 0`.  A pixel whose three color channels are all
`≤ threshold` gets alpha 0; any other pixel is left as it is. -/
def maskPixel (threshold : Nat) (p : Pixel4) : Pixel4 :=
  if p.1 ≤ threshold ∧ p.2.1 ≤ threshold ∧ p.2.2.1 ≤ threshold then
    (p.1, p.2.1, p.2.2.1, 0)
  else p

/-- Lines 364-367 of the source: if the frame has 3 channels, append a fully
opaque (255) alpha channel; a 4-channel frame is taken as is. -/
def ensureAlpha : Frame → List Pixel4
  | .rgb ps => ps.map fun p => (p.1, p.2.1, p.2.2, 255)
  | .rgba ps => ps

/-- Lines 370-373 of the source applied to a whole (4-channel) frame. -/
def maskFrame (threshold : Nat) (ps : List Pixel4) : List Pixel4 :=
  ps.map (maskPixel threshold)

/-- `convert_black_to_transparent(frame, threshold)`, source lines 359-375.
Line 362 (`frame = np.array(frame, copy=True)`) is the identity on values;
its heap-level content (the input buffer is never mutated) is modelled
separately by `convert_black_to_transparent_heap`.  The result always has 4
channels. -/
def convert_black_to_transparent (frame : Frame) (threshold : Nat) : Frame :=
  Frame.rgba (maskFrame threshold (ensureAlpha frame))

/-! ### Observation helpers (used only to state theorems) -/

/-- The color bytes of a frame, pixel by pixel, alpha dropped. -/
def colorBytes : Frame → List Pixel3
  | .rgb ps => ps
  | .rgba ps => ps.map fun p => (p.1, p.2.1, p.2.2.1)

/-- The alpha plane of a 4-channel frame (a 3-channel frame has none). -/
def alphaPlane : Frame → List Nat
  | .rgb _ => []
  | .rgba ps => ps.map fun p => p.2.2.2

/-- Boolean test: all three color channels of a 4-channel pixel are
`≤ threshold` (the source's `black_mask` entry for that pixel). -/
def isBlackPx (threshold : Nat) (p : Pixel4) : Bool :=
  decide (p.1 ≤ threshold) && decide (p.2.1 ≤ threshold) &&
    decide (p.2.2.1 ≤ threshold)

/-- `isBlackPx` decides exactly the condition `maskPixel` branches on. -/
lemma isBlackPx_eq_true_iff (t : Nat) (p : Pixel4) :
    isBlackPx t p = true ↔ (p.1 ≤ t ∧ p.2.1 ≤ t ∧ p.2.2.1 ≤ t) := by
  simp [isBlackPx, and_assoc]

lemma maskPixel_color (t : Nat) (p : Pixel4) :
    ((maskPixel t p).1, (maskPixel t p).2.1, (maskPixel t p).2.2.1) =
      (p.1, p.2.1, p.2.2.1) := by
  rcases p with ⟨r, g, b, a⟩
  simp only [maskPixel]
  split <;> rfl

lemma maskPixel_alpha (t : Nat) (p : Pixel4) :
    (maskPixel t p).2.2.2 = if isBlackPx t p then 0 else p.2.2.2 := by
  rcases p with ⟨r, g, b, a⟩
  simp only [maskPixel, isBlackPx, Bool.and_eq_true, decide_eq_true_eq, and_assoc]
  split <;> simp_all

lemma maskPixel_idem (t : Nat) (p : Pixel4) :
    maskPixel t (maskPixel t p) = maskPixel t p := by
  rcases p with ⟨r, g, b, a⟩
  simp only [maskPixel]
  split <;> simp_all

/-! ## Heap-level model of `convert_black_to_transparent` (claim C10)

The source mutates a numpy buffer in place (`frame[black_mask, 3] = 0`), so
whether the *caller's* buffer survives is a heap property.  The heap is a
store of buffers indexed by allocation order; `np.array(..., copy=True)` and
`np.concatenate` allocate fresh buffers, the mask assignment mutates the
buffer it is applied to. -/

/-- A store of numpy buffers; a buffer id is an index into the list. -/
abbrev Store := List Frame

/-- Allocation appends a fresh buffer and returns its id, so a fresh id never
aliases a live one. -/
def Store.alloc (s : Store) (f : Frame) : Store × Nat := (s ++ [f], s.length)

/-- In-place masking (lines 370-373) of one buffer.  The source only ever
applies it after the normalization of lines 364-367, so the 3-channel case is
unreachable there and is left as the identity. -/
def maskBuf (threshold : Nat) : Frame → Frame
  | .rgb ps => .rgb ps
  | .rgba ps => .rgba (maskFrame threshold ps)

/-- Heap-level `convert_black_to_transparent` (lines 359-375): takes the
store and the id of the caller's frame buffer, returns the new store and the
id of the result buffer.
* line 362 `frame = np.array(frame, copy=True)` allocates a fresh copy;
* lines 364-367 `np.concatenate([frame, alpha], axis=2)` allocates another
  fresh buffer when the frame has 3 channels;
* lines 370-373 mutate the current — always fresh — buffer in place. -/
def convert_black_to_transparent_heap (s : Store) (fid : Nat)
    (threshold : Nat) : Store × Nat :=
  let copy := Store.alloc s (s.getD fid (.rgb []))
  let s1 := copy.1
  let c1 := copy.2
  let norm : Store × Nat :=
    match s1.getD c1 (.rgb []) with
    | .rgb ps =>
        Store.alloc s1 (.rgba (ps.map fun p : Pixel3 => (p.1, p.2.1, p.2.2, 255)))
    | .rgba _ => (s1, c1)
  let s2 := norm.1
  let c2 := norm.2
  (s2.set c2 (maskBuf threshold (s2.getD c2 (.rgb []))), c2)

lemma getD_append_self {α : Type} (s : List α) (f d : α) :
    (s ++ [f]).getD s.length d = f := by
  rw [List.getD_append_right _ _ _ _ le_rfl]
  simp

lemma getD_set_ne {α : Type} (l : List α) (i j : Nat) (a d : α) (h : i ≠ j) :
    (l.set i a).getD j d = l.getD j d := by
  by_cases hj : j < l.length
  · rw [List.getD_eq_getElem _ _ (by simpa using hj),
      List.getD_eq_getElem _ _ hj]
    exact List.getElem_set_ne h _
  · rw [List.getD_eq_default _ _ (by simpa using Nat.le_of_not_lt hj),
      List.getD_eq_default _ _ (Nat.le_of_not_lt hj)]

lemma getD_set_self {α : Type} (l : List α) (i : Nat) (a d : α)
    (hi : i < l.length) : (l.set i a).getD i d = a := by
  rw [List.getD_eq_getElem _ _ (by simpa using hi)]
  simp

/-- C5: black-to-transparent masking with threshold `t` maps every pixel whose
three color channels are all `≤ t` to alpha 0, leaves every other pixel's
alpha untouched, and never changes any pixel's color bytes (for 4-channel and
3-channel inputs alike); on an entirely black frame the output alpha plane is
entirely 0. -/
theorem convert_black_masks_exactly_black_pixels (t : Nat) (ps : List Pixel4)
    (qs : List Pixel3) :
    colorBytes (convert_black_to_transparent (.rgba ps) t) =
        ps.map (fun p => (p.1, p.2.1, p.2.2.1)) ∧
    alphaPlane (convert_black_to_transparent (.rgba ps) t) =
        ps.map (fun p => if isBlackPx t p then 0 else p.2.2.2) ∧
    colorBytes (convert_black_to_transparent (.rgb qs) t) = qs ∧
    (ps.all (isBlackPx t) = true →
      alphaPlane (convert_black_to_transparent (.rgba ps) t) =
        List.replicate ps.length 0) := by
  have halpha : alphaPlane (convert_black_to_transparent (.rgba ps) t) =
      ps.map (fun p => if isBlackPx t p then 0 else p.2.2.2) := by
    simp only [convert_black_to_transparent, ensureAlpha, maskFrame, alphaPlane,
      List.map_map]
    refine List.map_congr_left fun p _ => ?_
    exact maskPixel_alpha t p
  refine ⟨?_, halpha, ?_, ?_⟩
  · simp only [convert_black_to_transparent, ensureAlpha, maskFrame, colorBytes,
      List.map_map]
    refine List.map_congr_left fun p _ => ?_
    exact maskPixel_color t p
  · simp only [convert_black_to_transparent, ensureAlpha, maskFrame, colorBytes,
      List.map_map]
    have : ∀ q ∈ qs,
        ((fun p : Pixel4 => (p.1, p.2.1, p.2.2.1)) ∘ maskPixel t ∘
          fun p : Pixel3 => (p.1, p.2.1, p.2.2, 255)) q = id q := by
      intro q _
      simpa using maskPixel_color t (q.1, q.2.1, q.2.2, 255)
    rw [List.map_congr_left this, List.map_id]
  · intro hall
    rw [halpha]
    have : ∀ p ∈ ps, (if isBlackPx t p then 0 else p.2.2.2) =
        (fun _ : Pixel4 => (0 : Nat)) p := by
      intro p hp
      simp [List.all_eq_true.mp hall p hp]
    rw [List.map_congr_left this, List.map_const']

/-- Witness for C5 at a concrete all-black 4-channel frame. -/
theorem convert_black_masks_exactly_black_pixels_witness :
    colorBytes (convert_black_to_transparent
        (.rgba [(3, 3, 3, 200), (0, 16, 5, 7)]) 16) = [(3, 3, 3), (0, 16, 5)] ∧
    alphaPlane (convert_black_to_transparent
        (.rgba [(3, 3, 3, 200), (0, 16, 5, 7)]) 16) = List.replicate 2 0 := by
  have h := convert_black_masks_exactly_black_pixels 16
      [(3, 3, 3, 200), (0, 16, 5, 7)] []
  exact ⟨h.1.trans (by decide), (h.2.2.2 (by decide)).trans (by decide)⟩

/-- C6: black-to-transparent masking is idempotent: applying
`convert_black_to_transparent` twice with the same threshold equals applying
it once, for every frame (3- or 4-channel) and every threshold. -/
theorem convert_black_to_transparent_idem (frame : Frame) (t : Nat) :
    convert_black_to_transparent (convert_black_to_transparent frame t) t =
      convert_black_to_transparent frame t := by
  rcases frame with ps | ps <;>
    simp only [convert_black_to_transparent, ensureAlpha, maskFrame,
      List.map_map] <;>
    exact congrArg Frame.rgba
      (List.map_congr_left fun p _ => maskPixel_idem t _)

/-- C10: `convert_black_to_transparent` never mutates its input buffer: in
the heap model, after the call the caller's buffer holds exactly the bytes it
held before, the returned id is a different (fresh) buffer, and that buffer
holds the (4-channel) value computed by the pure function. -/
theorem convert_black_heap_preserves_input (s : Store) (fid threshold : Nat)
    (hfid : fid < s.length) :
    (convert_black_to_transparent_heap s fid threshold).1.getD fid (.rgb []) =
        s.getD fid (.rgb []) ∧
    (convert_black_to_transparent_heap s fid threshold).2 ≠ fid ∧
    (convert_black_to_transparent_heap s fid threshold).1.getD
        (convert_black_to_transparent_heap s fid threshold).2 (.rgb []) =
      convert_black_to_transparent (s.getD fid (.rgb [])) threshold := by
  rcases hE : s.getD fid (.rgb []) with ps | ps <;>
    simp only [convert_black_to_transparent_heap, Store.alloc, hE,
      getD_append_self] <;>
    refine ⟨?_, ?_, ?_⟩
  · rw [getD_set_ne _ _ _ _ _
        (by try simp only [List.length_append, List.length_cons, List.length_nil]
            omega),
      List.getD_append _ _ _ _
        (by try simp only [List.length_append, List.length_cons, List.length_nil]
            omega),
      List.getD_append _ _ _ _ hfid]
    exact hE
  · try simp only [List.length_append, List.length_cons, List.length_nil]
    omega
  · rw [getD_set_self _ _ _ _
        (by try simp only [List.length_append, List.length_cons, List.length_nil]
            omega)]
    simp [maskBuf, convert_black_to_transparent, ensureAlpha, maskFrame]
  · rw [getD_set_ne _ _ _ _ _
        (by try simp only [List.length_append, List.length_cons, List.length_nil]
            omega),
      List.getD_append _ _ _ _ hfid]
    exact hE
  · try simp only [List.length_append, List.length_cons, List.length_nil]
    omega
  · rw [getD_set_self _ _ _ _
        (by try simp only [List.length_append, List.length_cons, List.length_nil]
            omega)]
    simp [maskBuf, convert_black_to_transparent, ensureAlpha, maskFrame]

/-- Witness for C10 at a concrete one-buffer store. -/
theorem convert_black_heap_preserves_input_witness :
    (convert_black_to_transparent_heap [Frame.rgb [(3, 3, 3)]] 0 16).1.getD 0
        (.rgb []) = Frame.rgb [(3, 3, 3)] ∧
    (convert_black_to_transparent_heap [Frame.rgb [(3, 3, 3)]] 0 16).2 ≠ 0 := by
  have h := convert_black_heap_preserves_input [Frame.rgb [(3, 3, 3)]] 0 16
    (by decide)
  exact ⟨h.1.trans (by decide), h.2.1⟩

/-! ## `GifWriter` (source lines 259-356) -/

/-- The error `GifWriter.close` raises at line 348 on a non-zero encoder exit
code. -/
inductive GifError where
  | ffmpegFailed (code : Int)
deriving DecidableEq, Repr

/-- The mutable state of a `GifWriter` (constructor, lines 262-269).
`process` is `none` until `_start_ffmpeg` runs; the process handle itself is
external, so its payload is a unit. -/
structure GifWriter where
  output_path : String
  fps : ℚ
  use_transparency : Bool
  process : Option Unit
  frame_count : Nat
deriving DecidableEq, Repr

/-- `GifWriter.__init__` (lines 262-269): no process is spawned yet, no frame
has been counted. -/
def GifWriter.init (output_path : String) (fps : ℚ) (use_transparency : Bool) :
    GifWriter :=
  ⟨output_path, fps, use_transparency, none, 0⟩

/-- The frame-format step of `GifWriter.add_frame` (lines 319-328): in
transparency mode a 3-channel frame gets an opaque (255) alpha appended; in
non-transparency mode a 4-channel frame has its alpha dropped
(`frame[:, :, :3]`); all other frames pass through unchanged. -/
def GifWriter.normalize_frame (use_transparency : Bool) (frame : Frame) :
    Frame :=
  if use_transparency then
    match frame with
    | .rgb ps => .rgba (ps.map fun p : Pixel3 => (p.1, p.2.1, p.2.2, 255))
    | .rgba ps => .rgba ps
  else
    match frame with
    | .rgb ps => .rgb ps
    | .rgba ps => .rgb (ps.map fun p : Pixel4 => (p.1, p.2.1, p.2.2.1))

/-- `GifWriter.add_frame` (lines 313-340): spawns the encoder process lazily
on the first frame (lines 316-317), normalizes the frame format (lines
319-328), writes the bytes to the process and counts the frame (lines
334-336).  The byte write is external I/O; the returned `Frame` is the value
whose bytes are written. -/
def GifWriter.add_frame (w : GifWriter) (frame : Frame) : GifWriter × Frame :=
  let w1 : GifWriter :=
    if w.process = none then
      ⟨w.output_path, w.fps, w.use_transparency, some (), w.frame_count⟩
    else w
  let out := GifWriter.normalize_frame w1.use_transparency frame
  (⟨w1.output_path, w1.fps, w1.use_transparency, w1.process,
      w1.frame_count + 1⟩, out)

/-- `GifWriter.close` (lines 342-350).  `exit_code` is the status the encoder
process would report from `wait()`; it is consulted only when a process was
actually spawned.  When `process` is `None` the whole body (lines 344-350) is
skipped and `close` returns normally. -/
def GifWriter.close (w : GifWriter) (exit_code : Int) :
    Except GifError GifWriter :=
  match w.process with
  | none => .ok w
  | some _ =>
      if exit_code ≠ 0 then .error (.ffmpegFailed exit_code)
      else .ok ⟨w.output_path, w.fps, w.use_transparency, none, w.frame_count⟩

/-- C2 (counterexample): on a writer that received zero `add_frame` calls, no
process was ever spawned, and `close` returns successfully — it raises no
error, even in an environment where a spawned encoder would have exited with
code 1. -/
theorem close_without_frames_returns_ok :
    (GifWriter.init "out.gif" 30 true).process = none ∧
    GifWriter.close (GifWriter.init "out.gif" 30 true) 1 =
      .ok (GifWriter.init "out.gif" 30 true) :=
  ⟨rfl, rfl⟩

/-- C2 (amended): if a `GifWriter` receives zero `add_frame` calls before
`close`, the encoder process is never spawned (spawning happens only inside
`add_frame`), and `close` is a no-op returning successfully whatever exit
code a process would have had; a process exists only once a frame is added,
and only a spawned process's non-zero exit makes `close` raise. -/
theorem close_without_frames_is_noop (path : String) (fps : ℚ) (useT : Bool)
    (code : Int) (frame : Frame) :
    (GifWriter.init path fps useT).process = none ∧
    GifWriter.close (GifWriter.init path fps useT) code =
      .ok (GifWriter.init path fps useT) ∧
    ((GifWriter.init path fps useT).add_frame frame).1.process = some () ∧
    ((GifWriter.init path fps useT).add_frame frame).1.close 1 =
      .error (.ffmpegFailed 1) :=
  ⟨rfl, rfl, rfl, rfl⟩

/-- C7: channel normalization round-trips losslessly on color: normalizing a
3-channel frame to 4 channels (transparency mode, opaque alpha appended,
lines 321-324) and then stripping back to 3 channels (non-transparency mode,
line 328) reproduces the original color bytes exactly. -/
theorem normalize_frame_round_trip (ps : List Pixel3) :
    GifWriter.normalize_frame false
        (GifWriter.normalize_frame true (.rgb ps)) = .rgb ps := by
  simp only [GifWriter.normalize_frame, if_true, if_false, List.map_map,
    Bool.false_eq_true]
  exact congrArg Frame.rgb
    ((List.map_congr_left fun p _ => by simp).trans (List.map_id ps))

/-! ## Transparency planning (`convert_webm_to_gif`, lines 390-407) -/

/-- The conversion plan of the spec's data model.  `blackThreshold` is the
literal 16 the source passes to `convert_black_to_transparent` at line 425;
it is consulted only when `synthesizeFromBlack` is set. -/
structure ConversionPlan where
  useTransparency : Bool
  synthesizeFromBlack : Bool
  blackThreshold : Nat
deriving DecidableEq, Repr

/-- Lines 390-407 of `convert_webm_to_gif`: when the probe reports an alpha
channel it is used directly; otherwise transparency and black-synthesis are
both requested exactly when the sampled black-pixel ratio exceeds 0.1. -/
def planTransparency (has_alpha : Bool) (black_ratio : ℚ) : ConversionPlan :=
  if has_alpha then ⟨true, false, 16⟩
  else if black_ratio > 1/10 then ⟨true, true, 16⟩
  else ⟨false, false, 16⟩

/-- C1: the planning decision is a pure function of `has_alpha` and
`black_ratio`: with alpha the plan is transparency-without-synthesis whatever
the ratio; without alpha both flags equal `black_ratio > 0.10`, with
threshold 16 when synthesizing (golden cases 0.05 and 0.35 included); and
every reachable plan satisfies `synthesizeFromBlack ⇒ useTransparency`. -/
theorem planTransparency_decision_table (r : ℚ) (ha : Bool) :
    planTransparency true r = ⟨true, false, 16⟩ ∧
    planTransparency false r =
      (if r > 1/10 then ⟨true, true, 16⟩ else ⟨false, false, 16⟩) ∧
    planTransparency false (5/100) = ⟨false, false, 16⟩ ∧
    planTransparency false (35/100) = ⟨true, true, 16⟩ ∧
    ((planTransparency ha r).synthesizeFromBlack &&
        !(planTransparency ha r).useTransparency) = false := by
  refine ⟨by simp [planTransparency], rfl, by norm_num [planTransparency],
    by norm_num [planTransparency], ?_⟩
  rcases ha
  · by_cases hb : (10 : ℚ)⁻¹ < r <;> simp [planTransparency, one_div, hb]
  · simp [planTransparency]

/-! ## Metadata parsing in `WebmDecoder.get_info` (source lines 130-154)

ffprobe reports the frame rate as a string; line 132 branches on whether it
contains a slash.  A string `"num/den"` is represented as `ratio num den`
(its two integer fields), a slash-free string as `plain v` (its float
value). -/

/-- The shape of the `r_frame_rate` field: a rational `"num/den"` or a plain
numeric string. -/
inductive FpsField where
  | ratio (num den : Int)
  | plain (val : ℚ)
deriving DecidableEq, Repr

/-- Lines 131-136 of `get_info`: `fps = num / den if den != 0 else 30.0` for
a rational field, `fps = float(fps_str)` for a slash-free one. -/
def parse_r_frame_rate : FpsField → ℚ
  | .ratio num den => if den ≠ 0 then (num : ℚ) / (den : ℚ) else 30
  | .plain v => v

/-- Lines 138-150 of `get_info`: the duration fallback chain as the source
implements it.  `format_duration` and `stream_duration` are the optional
`duration` entries of the probe output; `nb_frames` is the optional frame
count (`if nb_frames:` on a digit string is falsy only when the key is
absent). -/
def computeDuration (format_duration stream_duration : Option ℚ)
    (nb_frames : Option Nat) (fps : ℚ) : ℚ :=
  let duration : Option ℚ :=
    match format_duration with
    | some d => some d
    | none => stream_duration
  match duration with
  | some d =>
      if d ≤ 0 then
        match nb_frames with
        | some n => (n : ℚ) / fps
        | none => 10
      else d
  | none =>
      match nb_frames with
      | some n => (n : ℚ) / fps
      | none => 10

/-- Modelled from the spec's words (claim C8), for comparison with
`computeDuration`: "container format duration if present, else stream
duration, else frameCount/fps, else the constant 10.0 seconds". -/
def specDuration (format_duration stream_duration : Option ℚ)
    (nb_frames : Option Nat) (fps : ℚ) : ℚ :=
  match format_duration with
  | some d => d
  | none =>
      match stream_duration with
      | some d => d
      | none =>
          match nb_frames with
          | some n => (n : ℚ) / fps
          | none => 10

/-- C8 (counterexample): the code does not take a present format duration
unconditionally.  With a probed format duration of 0 (and no stream duration
or frame count) the claimed chain yields 0, but the code treats the
non-positive value as absent and falls through to the constant 10.0. -/
theorem computeDuration_zero_duration_counterexample :
    computeDuration (some 0) none none 24 = 10 ∧
    specDuration (some 0) none none 24 = 0 ∧
    computeDuration (some 0) none none 24 ≠ specDuration (some 0) none none 24 := by
  refine ⟨rfl, rfl, ?_⟩
  norm_num [computeDuration, specDuration]

/-- C8 (amended): the probed duration follows the fallback chain with
non-positive values treated as absent: a present *positive* format duration
wins; else (format absent) a present positive stream duration; if the
selected value is missing or non-positive, `frameCount/fps` when the frame
count is present, else the constant 10.0; in particular with both durations
absent and `nb_frames = 240, fps = 24` the result is exactly 10.0 seconds. -/
theorem computeDuration_fallback_chain (d : ℚ) (sd : Option ℚ)
    (nf : Option Nat) (n : Nat) (fps : ℚ) (hd : 0 < d) :
    computeDuration (some d) sd nf fps = d ∧
    computeDuration none (some d) nf fps = d ∧
    computeDuration none none (some n) fps = (n : ℚ) / fps ∧
    computeDuration none none none fps = 10 ∧
    computeDuration none none (some 240) 24 = 10 := by
  refine ⟨?_, ?_, rfl, rfl, by norm_num [computeDuration]⟩ <;>
    simp [computeDuration, not_le.mpr hd]

/-- Witness for C8 (amended) at concrete durations. -/
theorem computeDuration_fallback_chain_witness :
    computeDuration (some 5) (some 7) (some 240) 24 = 5 ∧
    computeDuration none (some 7) none 24 = 7 ∧
    computeDuration none none (some 240) 24 = 10 := by
  have h := computeDuration_fallback_chain 5 (some 7) (some 240) 240 24
    (by norm_num)
  have h2 := computeDuration_fallback_chain 7 none none 240 24 (by norm_num)
  exact ⟨h.1, h2.2.1, h.2.2.2.2⟩

/-- C9: frame-rate parsing computes `num/den` for a rational field, falls
back to 30.0 when the denominator is 0, and takes a slash-free field as its
numeric value: `"30000/1001"` gives exactly 30000/1001 (which is within
0.005 of 29.97), `"25/0"` gives 30.0, and `"24"` gives 24.0. -/
theorem parse_r_frame_rate_spec (num den : Int) :
    parse_r_frame_rate (.ratio num den) =
      (if den ≠ 0 then (num : ℚ) / (den : ℚ) else 30) ∧
    parse_r_frame_rate (.ratio 30000 1001) = 30000 / 1001 ∧
    |parse_r_frame_rate (.ratio 30000 1001) - 2997 / 100| < 5 / 1000 ∧
    parse_r_frame_rate (.ratio 25 0) = 30 ∧
    parse_r_frame_rate (.plain 24) = 24 := by
  refine ⟨rfl, by norm_num [parse_r_frame_rate], ?_, by norm_num [parse_r_frame_rate], rfl⟩
  norm_num [parse_r_frame_rate, abs_lt]

/-! ## `WebmDecoder.decode_frames` (source lines 208-256)

The decoder process's standard output is modelled as the byte list it will
deliver before closing.  `process.stdout.read(frame_size)` on a buffered
pipe returns `frame_size` bytes, or fewer exactly when the stream ends, i.e.
it returns `min frame_size remaining` bytes.  The `while True` loop (lines
236-247) is modelled with fuel: every iteration consumes `frame_size ≥ 1`
bytes, so `data.length` iterations always suffice (for `frame_size = 0` —
impossible for a real video — the source loop would never terminate). -/

/-- One decoded frame paired with its presentation timestamp
(`frame_count / fps`, line 244). -/
abbrev RawFrame := List Nat × ℚ

/-- Lines 236-247: read `frame_size` bytes; stop as soon as a read comes back
short (`len(raw_frame) != frame_size`, i.e. fewer than `frame_size` bytes
remain); otherwise emit the frame with timestamp `frame_count / fps` and
continue with `frame_count + 1`. -/
def readLoop (frame_size : Nat) (fps : ℚ) :
    Nat → List Nat → Nat → List RawFrame
  | 0, _, _ => []
  | fuel + 1, data, frame_count =>
      if frame_size ≤ data.length ∧ 0 < frame_size then
        (data.take frame_size, (frame_count : ℚ) / fps) ::
          readLoop frame_size fps fuel (data.drop frame_size) (frame_count + 1)
      else []

/-- `decode_frames` (lines 208-256): the frame size is
`width * height * channels` (line 232) and the counter starts at 0
(line 233). -/
def decode_frames (width height channels : Nat) (fps : ℚ)
    (data : List Nat) : List RawFrame :=
  readLoop (width * height * channels) fps data.length data 0

lemma readLoop_spec (fs : Nat) (fps : ℚ) (hfs : 0 < fs) :
    ∀ (k r : Nat), r < fs → ∀ (data : List Nat) (fuel fc : Nat),
      data.length = k * fs + r → data.length ≤ fuel →
      (readLoop fs fps fuel data fc).length = k ∧
      ∀ i, i < k →
        (readLoop fs fps fuel data fc).getD i ([], 0) =
          ((data.drop (i * fs)).take fs, ((fc + i : Nat) : ℚ) / fps) := by
  intro k
  induction k with
  | zero =>
      intro r hr data fuel fc hlen _
      have hstop : ¬ (fs ≤ data.length ∧ 0 < fs) := by
        rw [hlen]; omega
      rcases fuel with _ | fuel
      · exact ⟨rfl, fun i hi => absurd hi (by omega)⟩
      · simp only [readLoop, if_neg hstop]
        exact ⟨rfl, fun i hi => absurd hi (by omega)⟩
  | succ k ih =>
      intro r hr data fuel fc hlen hfuel
      have hgo : fs ≤ data.length ∧ 0 < fs := by
        constructor
        · rw [hlen]; calc fs ≤ (k + 1) * fs := Nat.le_mul_of_pos_left fs (by omega)
            _ ≤ (k + 1) * fs + r := Nat.le_add_right _ _
        · exact hfs
      rcases fuel with _ | fuel
      · omega
      · simp only [readLoop, if_pos hgo]
        have hlen' : (data.drop fs).length = k * fs + r := by
          rw [List.length_drop, hlen]
          have : fs ≤ (k + 1) * fs + r := hgo.1.trans (le_of_eq hlen)
          ring_nf
          omega
        have hfuel' : (data.drop fs).length ≤ fuel := by
          rw [List.length_drop]
          omega
        obtain ⟨hlenk, hnth⟩ := ih r hr (data.drop fs) fuel (fc + 1) hlen' hfuel'
        refine ⟨by simpa using hlenk, ?_⟩
        intro i hi
        rcases i with _ | i
        · simp
        · have := hnth i (by omega)
          rw [List.getD_cons_succ, this, List.drop_drop]
          have h1 : fs + i * fs = (i + 1) * fs := by ring
          have h2 : fc + 1 + i = fc + (i + 1) := by ring
          rw [h1, h2]

/-- C4: a decoder byte stream delivering exactly `k` complete frames of
`width*height*channels` bytes and then ending — possibly after a trailing
partial frame of `r < width*height*channels` further bytes — decodes to
exactly `k` frames, terminating normally, and the `i`-th frame (0-indexed)
is the `i`-th chunk of the stream with timestamp `i / fps`. -/
theorem decode_frames_stream_termination (width height channels k r : Nat)
    (fps : ℚ) (data : List Nat) (hfs : 0 < width * height * channels)
    (hr : r < width * height * channels)
    (hlen : data.length = k * (width * height * channels) + r) :
    (decode_frames width height channels fps data).length = k ∧
    ∀ i, i < k →
      (decode_frames width height channels fps data).getD i ([], 0) =
        ((data.drop (i * (width * height * channels))).take
            (width * height * channels), (i : ℚ) / fps) := by
  obtain ⟨h1, h2⟩ := readLoop_spec (width * height * channels) fps hfs k r hr
    data data.length 0 hlen le_rfl
  refine ⟨h1, fun i hi => ?_⟩
  have := h2 i hi
  rwa [Nat.zero_add] at this

/-- Witness for C4: a 1×2 3-channel stream of 13 bytes = two full 6-byte
frames plus one trailing byte decodes to exactly those two frames, with
timestamps 0 and 1/5. -/
theorem decode_frames_stream_termination_witness :
    (decode_frames 1 2 3 5 [1, 2, 3, 4, 5, 6, 7, 8, 9, 10, 11, 12, 13]).length
        = 2 ∧
    (decode_frames 1 2 3 5
        [1, 2, 3, 4, 5, 6, 7, 8, 9, 10, 11, 12, 13]).getD 1 ([], 0) =
      ([7, 8, 9, 10, 11, 12], 1 / 5) := by
  obtain ⟨h1, h2⟩ := decode_frames_stream_termination 1 2 3 2 1 5
    [1, 2, 3, 4, 5, 6, 7, 8, 9, 10, 11, 12, 13] (by decide) (by decide) (by decide)
  refine ⟨h1, (h2 1 (by decide)).trans ?_⟩
  norm_num

/-! ## Failure cleanup in `convert_webm_to_gif` (source lines 378-451)

The filesystem is modelled as the list of paths of existing files.  The
output path is computed before the `try` block (lines 380-381); everything
inside the `try` (lines 385-445: probing, analysis, planning, the streaming
loop, encoder close and the final stat) is abstracted as a `body` that
transforms the filesystem and either returns the output path or raises.  The
`except` clause (lines 447-451) is embedded literally: if the output file
exists it is unlinked, and the error is re-raised. -/

/-- A conversion error; which state it arose in is irrelevant to the
handler, which catches every `Exception`. -/
inductive ConvError where
  | probeError (msg : String)
  | frameProcessingError (index : Nat)
  | encoderFailed (code : Int)
deriving DecidableEq, Repr

/-- The filesystem: the list of paths that currently exist. -/
abbrev FileSys := List String

/-- `Path.exists` (line 449). -/
def FileSys.pathExists (fs : FileSys) (p : String) : Bool := fs.contains p

/-- `Path.unlink` (line 450): the file no longer exists afterwards. -/
def FileSys.unlink (fs : FileSys) (p : String) : FileSys :=
  fs.filter fun q => q ≠ p

/-- `convert_webm_to_gif` (lines 378-451) around an abstracted `try` body:
on success the body's result is returned unchanged; on any exception the
handler of lines 447-451 deletes the output file when it exists and
re-raises the same error. -/
def convert_webm_to_gif (body : FileSys → FileSys × Except ConvError String)
    (fs : FileSys) (gif_path : String) : FileSys × Except ConvError String :=
  match body fs with
  | (fs1, .ok p) => (fs1, .ok p)
  | (fs1, .error e) =>
      (if fs1.pathExists gif_path then fs1.unlink gif_path else fs1, .error e)

lemma contains_filter_ne_self (fs : FileSys) (p : String) :
    (fs.filter fun q => q ≠ p).contains p = false := by
  induction fs with
  | nil => rfl
  | cons a t ih =>
      by_cases ha : a = p <;>
        simp_all [List.filter_cons, List.contains_cons, Ne.symm]

/-- C3: whenever the conversion body fails — in any state after the output
path is determined — `convert_webm_to_gif` deletes the partial output file
when it exists and propagates the very same error; afterwards the output
path does not exist on disk (so no zero-byte or truncated file remains). -/
theorem convert_webm_cleans_up_on_failure
    (body : FileSys → FileSys × Except ConvError String) (fs : FileSys)
    (gif_path : String) (fs1 : FileSys) (e : ConvError)
    (hfail : body fs = (fs1, .error e)) :
    (convert_webm_to_gif body fs gif_path).2 = .error e ∧
    (convert_webm_to_gif body fs gif_path).1.pathExists gif_path = false := by
  rw [convert_webm_to_gif, hfail]
  refine ⟨rfl, ?_⟩
  by_cases h : fs1.pathExists gif_path
  · simp only [h, if_true]
    exact contains_filter_ne_self fs1 gif_path
  · simp only [h, if_false]
    simpa [FileSys.pathExists] using h

/-- Witness for C3: a body that creates the partial output and then fails at
frame 3; the handler removes the file and re-raises. -/
theorem convert_webm_cleans_up_on_failure_witness :
    (convert_webm_to_gif
        (fun fs => ("a.gif" :: fs, .error (.frameProcessingError 3)))
        ["other.txt"] "a.gif").2 = .error (.frameProcessingError 3) ∧
    (convert_webm_to_gif
        (fun fs => ("a.gif" :: fs, .error (.frameProcessingError 3)))
        ["other.txt"] "a.gif").1.pathExists "a.gif" = false := by
  exact convert_webm_cleans_up_on_failure
    (fun fs => ("a.gif" :: fs, .error (.frameProcessingError 3)))
    ["other.txt"] "a.gif" ["a.gif", "other.txt"]
    (.frameProcessingError 3) rfl
